import Mathlib

/-!
AVF-Guardian scoring pipeline: a shallow embedding.

A formalisation of the scoring core of `src/app.py`:
winsorization + log1p preprocessing, pairwise-interaction feature
expansion, standardization, logistic scoring, and per-feature
contribution decomposition.  Numeric values are modelled as real
numbers; Python dict iteration is modelled by association lists in
insertion order; fallible steps return `Except`/`Option`.
-/

namespace AVFGuardian

/-! Definitions -/

/-- The numpy function `np.log1p` as a real function: `ln (1 + x)`.
(IEEE NaN behaviour for `x < -1` is tracked separately by `npLog1p`.) -/
noncomputable def log1p (x : ℝ) : ℝ := Real.log (1 + x)

/-- Numpy `log1p` with its float domain made explicit: for `x < -1`
numpy silently returns NaN (modelled as `none`); otherwise the real
value. -/
noncomputable def npLog1p (x : ℝ) : Option ℝ :=
  if x < -1 then none else some (log1p x)

/-- A value stored in the `winsor_limits` dict for some key: either a
falsy entry (e.g. an empty dict, which fails the `if limits:` guard in
`app.py` line 198) or a truthy `{lower, upper}` bounds dict. -/
inductive WEntry where
  | empty : WEntry
  | bounds (lower upper : ℝ) : WEntry

/-- Python `str.lower()` on a character (ASCII case mapping, which covers
every name occurring in the program). -/
def lowerChar (c : Char) : Char :=
  if c.isUpper then Char.ofNat (c.toNat + 32) else c

/-- Python `str.strip()` on a character list: drop leading and trailing
whitespace. -/
def stripChars (l : List Char) : List Char :=
  ((l.dropWhile Char.isWhitespace).reverse.dropWhile Char.isWhitespace).reverse

/-- Key normalisation used by the winsor lookup: `k.strip().lower()`
(`app.py` line 193). -/
def normKey (s : String) : String :=
  String.mk ((stripChars s.data).map lowerChar)

/-- The winsor-limit search loop (`app.py` lines 191–195): walk the dict
keys in insertion order, return the value of the first key equal to the
column name after strip + lowercase; `none` if no key matches. -/
def findLimits (wl : List (String × WEntry)) (col : String) : Option WEntry :=
  (wl.find? (fun kv => decide (normKey kv.1 = normKey col))).map Prod.snd

/-- The clamp of `app.py` line 199: `max(limits['lower'], min(val, limits['upper']))`. -/
noncomputable def clampVal (lower upper val : ℝ) : ℝ :=
  max lower (min val upper)

/-- The per-column numeric preprocessing of `app.py` lines 191–202:
look up winsor limits for `col`; if a truthy bounds entry is found,
clamp, then log-transform (`np.log1p`).  A missing or falsy entry skips
the clamp. -/
noncomputable def clamp_and_transform (wl : List (String × WEntry)) (col : String)
    (val : ℝ) : ℝ :=
  match findLimits wl col with
  | some (WEntry.bounds lower upper) => log1p (clampVal lower upper val)
  | _ => log1p val

/-- The same preprocessing with numpy float-domain behaviour tracked:
an input below `-1` reaching `np.log1p` yields NaN (`none`), silently —
`app.py` raises no exception there. -/
noncomputable def clamp_and_transform_float (wl : List (String × WEntry)) (col : String)
    (val : ℝ) : Option ℝ :=
  match findLimits wl col with
  | some (WEntry.bounds lower upper) => npLog1p (clampVal lower upper val)
  | _ => npLog1p val

/-- The base feature order of `app.py` line 205. -/
def core_feats : List String :=
  ["log_MLR", "log_CRP", "log_triglycerides", "log_NLR", "IJVC", "sex"]

/-- Python `itertools.combinations(l, 2)` in its canonical nested order:
first element with each subsequent one, then the second with each
subsequent one after it, and so on. -/
def pairCombos {α : Type} : List α → List (α × α)
  | [] => []
  | x :: xs => xs.map (fun y => (x, y)) ++ pairCombos xs

/-- Feature expansion (`app.py` lines 205–216): the 6 main effects in
`core_feats` order, then the 15 pairwise interaction products named
`"c1*c2"`, over the values `v` assigns to the base feature names. -/
noncomputable def expand (v : String → ℝ) : List (String × ℝ) :=
  core_feats.map (fun f => (f, v f)) ++
    (pairCombos core_feats).map (fun p => (p.1 ++ "*" ++ p.2, v p.1 * v p.2))

/-- The 21 expanded feature names in their fixed canonical order. -/
def expandedNames : List String :=
  ["log_MLR", "log_CRP", "log_triglycerides", "log_NLR", "IJVC", "sex",
   "log_MLR*log_CRP", "log_MLR*log_triglycerides", "log_MLR*log_NLR",
   "log_MLR*IJVC", "log_MLR*sex",
   "log_CRP*log_triglycerides", "log_CRP*log_NLR", "log_CRP*IJVC", "log_CRP*sex",
   "log_triglycerides*log_NLR", "log_triglycerides*IJVC", "log_triglycerides*sex",
   "log_NLR*IJVC", "log_NLR*sex",
   "IJVC*sex"]

/-- Modelled from the spec: the iterated dot product
`Σ coefficient[i] * scaled[i]` inside the serialized logistic model's
`predict_proba` (sklearn, called at `app.py` line 223 but not part of
this repository's sources). -/
noncomputable def dotList : List ℝ → List ℝ → ℝ
  | a :: as, b :: bs => a * b + dotList as bs
  | _, _ => 0

/-- Modelled from the spec: the linear predictor
`z = intercept + Σ coefficient[i] * scaled[i]`. -/
noncomputable def linPred (intercept : ℝ) (coeffs scaled : List ℝ) : ℝ :=
  intercept + dotList coeffs scaled

/-- Modelled from the spec: the logistic sigmoid `p = 1 / (1 + exp (-z))`. -/
noncomputable def sigmoid (z : ℝ) : ℝ :=
  1 / (1 + Real.exp (-z))

/-- Modelled from the spec: `model.predict_proba(X_scaled)[0, 1]`
(`app.py` line 223) — the positive-class probability of the logistic
model: sigmoid of the linear predictor. -/
noncomputable def score (intercept : ℝ) (coeffs scaled : List ℝ) : ℝ :=
  sigmoid (linPred intercept coeffs scaled)

/-- The explainer loop of `app.py` lines 317–322:
`for name, coef, val in zip(feature_names, coeffs, X_scaled[0]):
contributions.append((name, coef * val))` (the display relabelling is
presentation and carries the value unchanged). -/
noncomputable def explainContribs : List String → List ℝ → List ℝ → List (String × ℝ)
  | n :: ns, c :: cs, v :: vs => (n, c * v) :: explainContribs ns cs vs
  | _, _, _ => []

/-- Request-fatal prediction errors of the scoring pipeline. -/
inductive PredictionError where
  | featureShapeError

/-- Modelled from the spec: sklearn's `scaler.transform` (called at
`app.py` line 220; sklearn is not part of this repository's sources)
validates that the incoming vector's length matches the number of fitted
per-feature `(mean, scale)` parameters and standardizes entrywise; a
length mismatch raises, which the handler at `app.py` lines 343–345
surfaces as a failed request. -/
noncomputable def standardize (params : List (ℝ × ℝ)) (features : List ℝ) :
    Except PredictionError (List ℝ) :=
  if features.length = params.length then
    Except.ok (List.zipWith (fun f mp => (f - mp.1) / mp.2) features params)
  else Except.error PredictionError.featureShapeError

/-- Lines 219–223 of `app.py`: standardize, then score; any failure
inside the `try` block aborts the request before a probability is
produced. -/
noncomputable def standardizeAndScore (intercept : ℝ) (coeffs : List ℝ)
    (params : List (ℝ × ℝ)) (features : List ℝ) : Except PredictionError ℝ :=
  (standardize params features).map (fun scaled => score intercept coeffs scaled)

/-- Descriptive statistics artifact: variable name → dict of statistics
(e.g. `"50%"` → median), as loaded from `data_stats.pkl`. -/
def Stats : Type := List (String × List (String × ℝ))

/-- The filesystem/deserialization environment `load_models` runs
against: which candidate directories exist (`os.path.exists`), and what
each `joblib.load` of a given base directory yields (`none` = the file
is missing or cannot be parsed, i.e. the load raises). -/
structure FS where
  dirExists : String → Bool
  loadModel : String → Option (List ℝ × ℝ)
  loadScaler : String → Option (List (ℝ × ℝ))
  loadWinsor : String → Option (List (String × WEntry))
  loadStats : String → Option Stats

/-- A fatal configuration error: `app.py` reports it with `st.error` and
halts startup with `st.stop()` (lines 111–113 and 125–127). -/
inductive LoadError where
  | fatalConfig

/-- The candidate model directories of `app.py` lines 100–104, in their
listed order. -/
def paths : List String := ["e:\\MLR\\Models", "Models", "../Models"]

/-- The directory-candidate loop of `app.py` lines 105–109: the first
candidate that exists, if any. -/
def findBase (fs : FS) : Option String := paths.find? fs.dirExists

/-- The loader `load_models` (`app.py` lines 97–127): pick the first
existing candidate directory (none → fatal); load model, scaler and
winsor limits (any failure → fatal); load the optional stats artifact,
falling back to the empty dict when it is absent or unreadable. -/
def load_models (fs : FS) :
    Except LoadError ((List ℝ × ℝ) × List (ℝ × ℝ) × List (String × WEntry) × Stats) :=
  match findBase fs with
  | none => Except.error LoadError.fatalConfig
  | some base =>
    match fs.loadModel base, fs.loadScaler base, fs.loadWinsor base with
    | some m, some sc, some w => Except.ok (m, sc, w, (fs.loadStats base).getD [])
    | _, _, _ => Except.error LoadError.fatalConfig

/-- The helper `get_default` (`app.py` lines 137–140): the stored median
(`stats[col]['50%']`) when present, otherwise the hardcoded fallback. -/
def get_default (stats : Stats) (col : String) (fallback : ℝ) : ℝ :=
  match (stats.find? (fun kv => decide (kv.1 = col))).map Prod.snd with
  | some d =>
    match (d.find? (fun kv => decide (kv.1 = "50%"))).map Prod.snd with
    | some v => v
    | none => fallback
  | none => fallback

/-- An environment where every candidate directory exists and every
artifact file is unreadable. -/
def fsAllDirs : FS := ⟨fun _ => true, fun _ => none, fun _ => none, fun _ => none, fun _ => none⟩

/-- An environment where only the `"Models"` candidate exists. -/
def fsOnlyModels : FS :=
  ⟨fun s => decide (s = "Models"), fun _ => none, fun _ => none, fun _ => none, fun _ => none⟩

/-- An environment where only the `"../Models"` candidate exists. -/
def fsOnlyParent : FS :=
  ⟨fun s => decide (s = "../Models"), fun _ => none, fun _ => none, fun _ => none, fun _ => none⟩

/-- An environment with no candidate directory at all. -/
def fsNoDirs : FS := ⟨fun _ => false, fun _ => none, fun _ => none, fun _ => none, fun _ => none⟩

/-- An environment where the model file is unreadable but the scaler and
winsor-limits files load. -/
def fsBadModel : FS :=
  ⟨fun _ => true, fun _ => none, fun _ => some [], fun _ => some [], fun _ => none⟩

/-- An environment where all required artifacts load and the optional
stats artifact is absent. -/
def fsNoStats : FS :=
  ⟨fun _ => true, fun _ => some ([], 0), fun _ => some [], fun _ => some [], fun _ => none⟩

/-! Theorems -/

/-- C1: for every 6-element base-feature input, expansion yields exactly
21 named features — the 6 main effects first in the fixed order
`log_MLR, log_CRP, log_triglycerides, log_NLR, IJVC, sex`, then the 15
pairwise products in the canonical nested order of unordered
combinations — and the name list (hence the name set) is identical
across any two invocations. -/
theorem expand_names_canonical (v w : String → ℝ) :
    (expand v).map Prod.fst = expandedNames ∧
    (expand v).length = 21 ∧
    (expand v).map Prod.fst = (expand w).map Prod.fst := by
  refine ⟨rfl, rfl, rfl⟩

/-- C2: when winsor limits are found for a variable, the preprocessor
computes `v = max(lower, min(raw, upper))` and applies `log1p`: below
`lower` the result is `log1p lower`, above `upper` it is `log1p upper`,
and inside the bounds it is `log1p raw` exactly. -/
theorem clamp_and_transform_clamps (wl : List (String × WEntry)) (col : String)
    (lower upper raw : ℝ)
    (hfind : findLimits wl col = some (WEntry.bounds lower upper))
    (hlu : lower ≤ upper) :
    clamp_and_transform wl col raw = log1p (max lower (min raw upper)) ∧
    (raw < lower → clamp_and_transform wl col raw = log1p lower) ∧
    (upper < raw → clamp_and_transform wl col raw = log1p upper) ∧
    (lower ≤ raw → raw ≤ upper → clamp_and_transform wl col raw = log1p raw) := by
  have hbase : clamp_and_transform wl col raw = log1p (max lower (min raw upper)) := by
    unfold clamp_and_transform
    rw [hfind]
    rfl
  refine ⟨hbase, ?_, ?_, ?_⟩
  · intro hlow
    rw [hbase]
    have h1 : min raw upper ≤ lower := le_trans (min_le_left _ _) (le_of_lt hlow)
    rw [max_eq_left h1]
  · intro hup
    rw [hbase]
    rw [min_eq_right (le_of_lt hup), max_eq_right hlu]
  · intro h1 h2
    rw [hbase]
    rw [min_eq_left h2, max_eq_right h1]

/-- Witness for C2 at concrete inputs: limits `[0, 2]` keyed `"MLR"`,
raw values `5` (above), `-3` (below) and `1` (inside). -/
theorem clamp_and_transform_clamps_wit :
    clamp_and_transform [("MLR", WEntry.bounds 0 2)] "MLR" 5 = log1p 2 ∧
    clamp_and_transform [("MLR", WEntry.bounds 0 2)] "MLR" (-3) = log1p 0 ∧
    clamp_and_transform [("MLR", WEntry.bounds 0 2)] "MLR" 1 = log1p 1 := by
  refine ⟨?_, ?_, ?_⟩
  · exact (clamp_and_transform_clamps [("MLR", WEntry.bounds 0 2)] "MLR" 0 2 5
      (by rfl) (by norm_num)).2.2.1 (by norm_num)
  · exact (clamp_and_transform_clamps [("MLR", WEntry.bounds 0 2)] "MLR" 0 2 (-3)
      (by rfl) (by norm_num)).2.1 (by norm_num)
  · exact (clamp_and_transform_clamps [("MLR", WEntry.bounds 0 2)] "MLR" 0 2 1
      (by rfl) (by norm_num)).2.2.2 (by norm_num) (by norm_num)

/-- C4: winsor lookup compares keys and the variable name after strip and
lowercase, so a key whose normalisation agrees with the variable's (e.g.
key `"crp"` vs variable `"CRP"`) matches; and when no key matches, the
clamp is skipped and the raw value is log-transformed unchanged. -/
theorem findLimits_case_insensitive (k col : String) (e : WEntry)
    (rest wl : List (String × WEntry)) (raw : ℝ) :
    (normKey k = normKey col → findLimits ((k, e) :: rest) col = some e) ∧
    (findLimits wl col = none → clamp_and_transform wl col raw = log1p raw) := by
  constructor
  · intro h
    unfold findLimits
    rw [List.find?_cons_of_pos _ (by simp [h])]
    rfl
  · intro h
    unfold clamp_and_transform
    rw [h]

/-- Witness for C4: the limit keyed `"crp"` matches variable `"CRP"`, and
an empty limits mapping leaves the raw value log-transformed unchanged. -/
theorem findLimits_case_insensitive_wit :
    findLimits [("crp", WEntry.bounds 1 2)] "CRP" = some (WEntry.bounds 1 2) ∧
    clamp_and_transform [] "CRP" 7 = log1p 7 := by
  constructor
  · exact (findLimits_case_insensitive "crp" "CRP" (WEntry.bounds 1 2) [] [] 7).1
      (by decide)
  · exact (findLimits_case_insensitive "crp" "CRP" (WEntry.bounds 1 2) [] [] 7).2
      (by rfl)

/-- C10: a variable whose name matches a winsor key holding a falsy
(empty) bounds entry is not clamped: the preprocessor treats it exactly
like a variable with no matching key at all. -/
theorem empty_entry_skips_clamp (wl : List (String × WEntry)) (col : String) (raw : ℝ)
    (h : findLimits wl col = some WEntry.empty) :
    clamp_and_transform wl col raw = clamp_and_transform [] col raw ∧
    clamp_and_transform wl col raw = log1p raw := by
  have : clamp_and_transform wl col raw = log1p raw := by
    unfold clamp_and_transform
    rw [h]
  exact ⟨this, this⟩

/-- Witness for C10: a map whose entry for `"crp"` is empty leaves
variable `"CRP"` untransformed by the clamp. -/
theorem empty_entry_skips_clamp_wit :
    clamp_and_transform [("crp", WEntry.empty)] "CRP" 3
      = clamp_and_transform [] "CRP" 3 :=
  (empty_entry_skips_clamp [("crp", WEntry.empty)] "CRP" 3 (by rfl)).1

/-- C5 (code evaluation): a value below `-1` that reaches `np.log1p`
(here: raw `-2` for a variable with no winsor match) silently yields NaN
(`none`); `app.py` raises no `NumericDomainError` — no such error type
exists in the code. -/
theorem log1p_domain_nan :
    clamp_and_transform_float [] "MLR" (-2) = none := by
  unfold clamp_and_transform_float findLimits npLog1p
  norm_num

theorem explainContribs_snd (names : List String) (coeffs scaled : List ℝ)
    (hn : coeffs.length ≤ names.length) :
    (explainContribs names coeffs scaled).map Prod.snd
      = List.zipWith (fun c v => c * v) coeffs scaled := by
  induction names generalizing coeffs scaled with
  | nil =>
    cases coeffs with
    | nil => cases scaled <;> rfl
    | cons c cs => exact absurd hn (by simp)
  | cons n ns ih =>
    cases coeffs with
    | nil => cases scaled <;> rfl
    | cons c cs =>
      cases scaled with
      | nil => rfl
      | cons v vs =>
        have : cs.length ≤ ns.length := by
          simpa using hn
        simp [explainContribs, ih cs vs this]

theorem sum_zipWith_eq_dotList (coeffs scaled : List ℝ) :
    (List.zipWith (fun c v => c * v) coeffs scaled).sum = dotList coeffs scaled := by
  induction coeffs generalizing scaled with
  | nil => cases scaled <;> rfl
  | cons c cs ih =>
    cases scaled with
    | nil => rfl
    | cons v vs => simp [dotList, ih vs]

theorem zipWith_mul_getD (coeffs scaled : List ℝ) (i : ℕ)
    (hic : i < coeffs.length) (his : i < scaled.length) :
    (List.zipWith (fun c v => c * v) coeffs scaled).getD i 0
      = coeffs.getD i 0 * scaled.getD i 0 := by
  induction coeffs generalizing scaled i with
  | nil => simp at hic
  | cons c cs ih =>
    cases scaled with
    | nil => simp at his
    | cons v vs =>
      cases i with
      | zero => rfl
      | succ j =>
        have h1 : j < cs.length := by simpa using hic
        have h2 : j < vs.length := by simpa using his
        simpa using ih vs j h1 h2

/-- C3: each per-feature contribution computed by the explainer equals
`coefficient[i] * scaled[i]`, and the sum of all contributions plus the
model intercept equals the linear predictor `z` fed into the sigmoid
(exactly, over the reals). -/
theorem explain_additive_decomposition (names : List String) (intercept : ℝ)
    (coeffs scaled : List ℝ)
    (hn : names.length = coeffs.length) (hcs : coeffs.length = scaled.length) :
    (∀ i, i < coeffs.length →
      ((explainContribs names coeffs scaled).map Prod.snd).getD i 0
        = coeffs.getD i 0 * scaled.getD i 0) ∧
    ((explainContribs names coeffs scaled).map Prod.snd).sum + intercept
      = linPred intercept coeffs scaled ∧
    score intercept coeffs scaled = sigmoid (linPred intercept coeffs scaled) := by
  have hsnd := explainContribs_snd names coeffs scaled (le_of_eq hn.symm)
  refine ⟨?_, ?_, rfl⟩
  · intro i hi
    rw [hsnd]
    exact zipWith_mul_getD coeffs scaled i hi (hcs ▸ hi)
  · rw [hsnd, sum_zipWith_eq_dotList, linPred, add_comm]

/-- Witness for C3 at a concrete input: two named features with
coefficients `[2, 3]`, scaled values `[5, 7]` and intercept `1`. -/
theorem explain_additive_decomposition_wit :
    (((explainContribs ["a", "b"] [2, 3] [5, 7]).map Prod.snd).getD 0 0
        = ([(2:ℝ), 3].getD 0 0) * ([(5:ℝ), 7].getD 0 0)) ∧
    ((explainContribs ["a", "b"] [2, 3] [5, 7]).map Prod.snd).sum + 1
        = linPred 1 [2, 3] [5, 7] := by
  have h := explain_additive_decomposition ["a", "b"] 1 [2, 3] [5, 7]
    (by simp) (by simp)
  exact ⟨h.1 0 (by simp), h.2.1⟩

theorem dotList_set_le (coeffs : List ℝ) (scaled : List ℝ) (i : ℕ) (x x' : ℝ)
    (hc : 0 < coeffs.getD i 0) (hi : i < scaled.length) (hxx : x ≤ x') :
    dotList coeffs (scaled.set i x) ≤ dotList coeffs (scaled.set i x') := by
  induction coeffs generalizing scaled i with
  | nil => simp [dotList]
  | cons c cs ih =>
    cases scaled with
    | nil => simp at hi
    | cons v vs =>
      cases i with
      | zero =>
        have hcpos : (0:ℝ) < c := by simpa [List.getD] using hc
        simp only [List.set, dotList]
        have : c * x ≤ c * x' := mul_le_mul_of_nonneg_left hxx (le_of_lt hcpos)
        linarith
      | succ j =>
        have hc' : 0 < cs.getD j 0 := by simpa [List.getD] using hc
        have hj : j < vs.length := by simpa using hi
        simp only [List.set, dotList]
        have := ih vs j hc' hj
        linarith

theorem sigmoid_monotone {a b : ℝ} (hab : a ≤ b) : sigmoid a ≤ sigmoid b := by
  unfold sigmoid
  have h1 : (0:ℝ) < 1 + Real.exp (-b) := by positivity
  have h2 : 1 + Real.exp (-b) ≤ 1 + Real.exp (-a) := by
    have := Real.exp_le_exp.mpr (neg_le_neg hab)
    linarith
  exact one_div_le_one_div_of_le h1 h2

/-- C8: for a model with a positive coefficient on feature `i`,
increasing `scaled[i]` while holding every other entry fixed never
decreases the output probability `1 / (1 + exp (-z))`,
`z = intercept + Σ coefficient[i] * scaled[i]`. -/
theorem score_monotone_in_positive_coef (intercept : ℝ) (coeffs scaled : List ℝ)
    (i : ℕ) (x x' : ℝ)
    (hc : 0 < coeffs.getD i 0) (hi : i < scaled.length) (hxx : x ≤ x') :
    score intercept coeffs (scaled.set i x) ≤ score intercept coeffs (scaled.set i x') := by
  apply sigmoid_monotone
  unfold linPred
  have := dotList_set_le coeffs scaled i x x' hc hi hxx
  linarith

/-- Witness for C8: coefficient `1` on the only feature, scaled value
raised from `0` to `1`. -/
theorem score_monotone_in_positive_coef_wit :
    (0:ℝ) < [(1:ℝ)].getD 0 0 ∧ 0 < [(0:ℝ)].length ∧ (0:ℝ) ≤ 1 ∧
    score 0 [1] ([(0:ℝ)].set 0 0) ≤ score 0 [1] ([(0:ℝ)].set 0 1) :=
  ⟨by norm_num, by norm_num,
   by norm_num,
   score_monotone_in_positive_coef 0 [1] [0] 0 0 1 (by norm_num) (by norm_num)
     (by norm_num)⟩

/-- C7: a length mismatch between the computed feature vector and the
loaded scaler parameters makes standardization fail with a
`FeatureShapeError` that is surfaced (the request's result IS the
error — nothing is truncated, padded or masked), and the feature vector
is never scored: no probability is ever produced. -/
theorem shape_mismatch_fatal (intercept : ℝ) (coeffs : List ℝ)
    (params : List (ℝ × ℝ)) (features : List ℝ)
    (h : features.length ≠ params.length) :
    standardize params features = Except.error PredictionError.featureShapeError ∧
    standardizeAndScore intercept coeffs params features
      = Except.error PredictionError.featureShapeError ∧
    ∀ p : ℝ, standardizeAndScore intercept coeffs params features ≠ Except.ok p := by
  have hstd : standardize params features
      = Except.error PredictionError.featureShapeError := by
    unfold standardize
    rw [if_neg h]
  refine ⟨hstd, ?_, ?_⟩
  · unfold standardizeAndScore
    rw [hstd]
    rfl
  · intro p hcontra
    rw [standardizeAndScore, hstd] at hcontra
    exact Except.noConfusion hcontra

/-- Witness for C7: a 1-element feature vector against an empty scaler
parameter list. -/
theorem shape_mismatch_fatal_wit :
    standardizeAndScore 0 [] [] [(0:ℝ)] = Except.error PredictionError.featureShapeError :=
  (shape_mismatch_fatal 0 [] [] [(0:ℝ)] (by simp)).2.1

/-- C9: artifact loading tries the candidate directories in listed order
and uses the first that exists; no existing candidate, or an unloadable
model/scaler/winsor-limits file, is fatal; a missing optional stats
artifact is non-fatal, loading succeeds with the empty stats dict, from
which `get_default` falls back to the hardcoded default value. -/
theorem load_models_spec (fs : FS) :
    (fs.dirExists "e:\\MLR\\Models" = true → findBase fs = some "e:\\MLR\\Models") ∧
    (fs.dirExists "e:\\MLR\\Models" = false → fs.dirExists "Models" = true →
      findBase fs = some "Models") ∧
    (fs.dirExists "e:\\MLR\\Models" = false → fs.dirExists "Models" = false →
      fs.dirExists "../Models" = true → findBase fs = some "../Models") ∧
    ((∀ p ∈ paths, fs.dirExists p = false) →
      load_models fs = Except.error LoadError.fatalConfig) ∧
    (∀ base, findBase fs = some base →
      (fs.loadModel base = none ∨ fs.loadScaler base = none ∨ fs.loadWinsor base = none) →
      load_models fs = Except.error LoadError.fatalConfig) ∧
    (∀ base m sc w, findBase fs = some base →
      fs.loadModel base = some m → fs.loadScaler base = some sc →
      fs.loadWinsor base = some w → fs.loadStats base = none →
      load_models fs = Except.ok (m, sc, w, [])) ∧
    (∀ col fallback, get_default [] col fallback = fallback) := by
  refine ⟨?_, ?_, ?_, ?_, ?_, ?_, ?_⟩
  · intro h1
    unfold findBase paths
    rw [List.find?_cons_of_pos _ h1]
  · intro h1 h2
    unfold findBase paths
    rw [List.find?_cons_of_neg _ (by simp [h1]), List.find?_cons_of_pos _ h2]
  · intro h1 h2 h3
    unfold findBase paths
    rw [List.find?_cons_of_neg _ (by simp [h1]), List.find?_cons_of_neg _ (by simp [h2]),
      List.find?_cons_of_pos _ h3]
  · intro h
    have hb : findBase fs = none := by
      unfold findBase paths
      rw [List.find?_cons_of_neg _ (by simp [h "e:\\MLR\\Models" (by simp [paths])]),
        List.find?_cons_of_neg _ (by simp [h "Models" (by simp [paths])]),
        List.find?_cons_of_neg _ (by simp [h "../Models" (by simp [paths])])]
      rfl
    unfold load_models
    rw [hb]
  · intro base hb h
    have hred : load_models fs
        = match fs.loadModel base, fs.loadScaler base, fs.loadWinsor base with
          | some m', some sc', some w' =>
            Except.ok (m', sc', w', (fs.loadStats base).getD [])
          | _, _, _ => Except.error LoadError.fatalConfig := by
      unfold load_models
      rw [hb]
    rcases h with h | h | h
    · rw [hred, h]
    · rw [hred, h]
      cases fs.loadModel base <;> rfl
    · rw [hred, h]
      cases fs.loadModel base
      · rfl
      · cases fs.loadScaler base <;> rfl
  · intro base m sc w hb hm hsc hw hst
    have hred : load_models fs
        = match fs.loadModel base, fs.loadScaler base, fs.loadWinsor base with
          | some m', some sc', some w' =>
            Except.ok (m', sc', w', (fs.loadStats base).getD [])
          | _, _, _ => Except.error LoadError.fatalConfig := by
      unfold load_models
      rw [hb]
    rw [hred, hm, hsc, hw]
    show Except.ok (m, sc, w, (fs.loadStats base).getD []) = _
    rw [hst]
    rfl
  · intro col fallback
    rfl

/-- Witness for C9: concrete environments exercising each branch — every
candidate missing (fatal), only a later candidate present, an
unparseable model file (fatal), and a full load with the optional stats
artifact absent. -/
theorem load_models_spec_wit :
    findBase fsAllDirs = some "e:\\MLR\\Models" ∧
    findBase fsOnlyModels = some "Models" ∧
    findBase fsOnlyParent = some "../Models" ∧
    load_models fsNoDirs = Except.error LoadError.fatalConfig ∧
    load_models fsBadModel = Except.error LoadError.fatalConfig ∧
    load_models fsNoStats = Except.ok (([], 0), [], [], []) ∧
    get_default [] "MLR" 4 = 4 := by
  refine ⟨?_, ?_, ?_, ?_, ?_, ?_, ?_⟩
  · exact (load_models_spec fsAllDirs).1 rfl
  · exact (load_models_spec fsOnlyModels).2.1 rfl rfl
  · exact (load_models_spec fsOnlyParent).2.2.1 rfl rfl rfl
  · exact (load_models_spec fsNoDirs).2.2.2.1 (fun p _ => rfl)
  · exact (load_models_spec fsBadModel).2.2.2.2.1 "e:\\MLR\\Models" rfl (Or.inl rfl)
  · exact (load_models_spec fsNoStats).2.2.2.2.2.1 "e:\\MLR\\Models" ([], 0) [] []
      rfl rfl rfl rfl rfl
  · exact (load_models_spec fsNoStats).2.2.2.2.2.2 "MLR" 4

end AVFGuardian
